import Mathlib

/-!
Shallow embedding of `src/task_manager.h` (namespace `unmined`), a worker-pool
task scheduler, together with theorems checking its specification.

The header contains the full data model (the `task` struct, the `tm_settings`
and `task_settings` enums, the member initializers of `task_manager`) and the
inline bodies of `task_manager::set` and `task_manager::get`.  Those parts are
embedded directly from the source.  The bodies of `_pop_queue`, `clear_pool`,
`pool` and the worker execution loop are declared in the header but their
definitions are not part of the sources; they are modelled from the
specification, and each such definition says so in its doc comment.

Machine integers are modelled as `Nat` with explicit reductions modulo `2^16`
(for the `uint16_t settings_` field) and bit patterns of 32-bit two's
complement ints as `Nat` below `2^32`.
-/

set_option autoImplicit false

namespace unmined

/-- Source enum `tm_settings`: `KILL_ON_EMPTY = 1`. -/
def KILL_ON_EMPTY : Nat := 1

/-- Source enum `tm_settings`: `IN_ORDER = 1 << 1`. -/
def IN_ORDER : Nat := 2

/-- Bit pattern (as an unsigned 32-bit value) of the C++ `~x` on a 32-bit int
whose own pattern is `x`: bitwise complement within 32 bits. -/
def NOT32 (x : Nat) : Nat := 4294967295 - x

/-- Source macro `EVAL(x, y) ((x & y) == (y))`. -/
def EVAL (x y : Nat) : Bool := (x &&& y) == y

/-- Source macro `SET_ON(x, y) x |= y` (the resulting value before the
assignment's truncation back to `uint16_t`). -/
def SET_ON (x y : Nat) : Nat := x ||| y

/-- Source macro `SET_OFF(x, y) x &= ~y` (the resulting value before the
assignment's truncation back to `uint16_t`); `~y` is 32-bit complement. -/
def SET_OFF (x y : Nat) : Nat := x &&& NOT32 y

/-- Source enum `task_settings` (`AFTER = 0`, `POOL = 1`, `ID = -1`),
the keys of a task's settings map. -/
inductive task_settings where
  | AFTER
  | POOL
  | ID
deriving DecidableEq

/-- Source struct `retype`: a task function's result, a string plus an
`int` error code. -/
structure retype where
  ret : String
  err : Int

/-- Source struct `task`: a name, a function producing a `retype`, a settings
map defaulting to `{{AFTER, ""}, {POOL, name}}` (the default target pool is
the task's own name), and an id defaulting to `-1`. -/
structure task where
  name : String
  func : Unit → retype
  settings : List (task_settings × String) :=
    [(task_settings.AFTER, ""), (task_settings.POOL, name)]
  id : Int := -1

/-- Association-list lookup (first entry with the given key), the embedding of
`std::unordered_map` access on the maps used by the task manager. -/
def alookup {κ α : Type} [DecidableEq κ] : List (κ × α) → κ → Option α
  | [], _ => none
  | e :: rest, k => if e.1 = k then some e.2 else alookup rest k

/-- Reading `t.settings[k]` on the task's settings map; a missing key yields
the default-constructed empty string. -/
def task.get_setting (t : task) (k : task_settings) : String :=
  (alookup t.settings k).getD ""

/-- The mutable state of a `task_manager` instance, with the member
initializers of the source as field defaults.  In particular
`settings_ = 0 | (~KILL_ON_EMPTY | IN_ORDER)` on a 32-bit int, truncated to
`uint16_t`, which is `0xFFFE = 65534`. -/
structure tm_state where
  queue_ : List task := []
  done_ : List String := []
  pools_ : List (String × List (Nat × String)) := []
  pool_ntIDs : List (String × Nat) := []
  is_paused_ : Bool := true
  stop_ : Bool := false
  settings_ : Nat := (0 ||| (NOT32 KILL_ON_EMPTY ||| IN_ORDER)) % 65536

/-- A freshly constructed task manager's state, before any call to `set`:
every field holds its member-initializer value. -/
def init_state : tm_state := {}

/-- Source `task_manager::set`:
`if (val) SET_ON(settings_, t); else SET_OFF(settings_, ~t);`, the result
truncated to `uint16_t` by the compound assignment. -/
def set (s : tm_state) (t : Nat) (val : Bool) : tm_state :=
  { s with settings_ :=
      (if val then SET_ON s.settings_ t else SET_OFF s.settings_ (NOT32 t)) % 65536 }

/-- Source `task_manager::get`: `return EVAL(settings_, mask);`. -/
def get (s : tm_state) (mask : Nat) : Bool :=
  EVAL s.settings_ mask

/-- A settings state in which only the `KILL_ON_EMPTY` bit is set. -/
def state_koe : tm_state := { settings_ := 1 }

/-- A settings state in which both policy flags are set. -/
def state_both : tm_state := { settings_ := 3 }

/-- Helper: `s &&& m = m` says exactly that every bit of `m` is set in `s`. -/
theorem land_eq_right_iff (s m : Nat) :
    s &&& m = m ↔ ∀ i, m.testBit i = true → s.testBit i = true := by
  constructor
  · intro h i hi
    have h2 := congrArg (fun x => Nat.testBit x i) h
    simp only [Nat.testBit_land, hi, Bool.and_true] at h2
    exact h2
  · intro h
    apply Nat.eq_of_testBit_eq
    intro i
    rw [Nat.testBit_land]
    cases hm : m.testBit i
    · simp
    · simp [h i hm]

/-- Helper: the mask check over a combined mask splits into the two checks. -/
theorem land_lor_eq_iff (s a b : Nat) :
    s &&& (a ||| b) = (a ||| b) ↔ (s &&& a = a ∧ s &&& b = b) := by
  simp only [land_eq_right_iff]
  constructor
  · intro h
    refine ⟨fun i hi => h i ?_, fun i hi => h i ?_⟩
    · rw [Nat.testBit_lor, hi, Bool.true_or]
    · rw [Nat.testBit_lor, hi, Bool.or_true]
  · rintro ⟨h1, h2⟩ i hi
    simp only [Nat.testBit_lor, Bool.or_eq_true] at hi
    rcases hi with h | h
    · exact h1 i h
    · exact h2 i h

/-- C1: evaluation of the code at the failing input.  From a settings state
with the `KILL_ON_EMPTY` bit set, `set(KILL_ON_EMPTY, false)` followed by
`get(KILL_ON_EMPTY)` returns `true`, not `false` as the claim requires:
`SET_OFF(settings_, ~t)` expands to `settings_ &= ~(~t)`, i.e.
`settings_ &= t`, which leaves bit `t` set. -/
theorem set_false_leaves_flag_set :
    get (set state_koe KILL_ON_EMPTY false) KILL_ON_EMPTY = true := by
  decide

/-- C2: evaluation of the code at the failing input.  From the settings state
with both flags set, `set(KILL_ON_EMPTY, false)` changes the value reported
by `get(IN_ORDER)` from `true` to `false`: the buggy else-branch
`settings_ &= t` clears every bit outside `t`, including the other flag. -/
theorem set_false_clears_other_flag :
    get state_both IN_ORDER = true ∧
    get (set state_both KILL_ON_EMPTY false) IN_ORDER = false := by
  decide

/-- C3 counterexample: on a freshly constructed task manager, `get(IN_ORDER)`
does not return `false` — the member initializer
`settings_ = 0 | (~KILL_ON_EMPTY | IN_ORDER)` sets the `IN_ORDER` bit. -/
theorem fresh_in_order_not_false :
    ¬ (get init_state IN_ORDER = false) := by
  decide

/-- C3 (amended): on a freshly constructed task manager, before any call to
`set`, the `IN_ORDER` policy is set: `get(IN_ORDER)` returns `true`, so the
default dependency policy is the strict in-order one, not the rotating scan. -/
theorem fresh_in_order_true :
    get init_state IN_ORDER = true := by
  decide

/-- C9: on a freshly constructed task manager, before any call to `set`,
`get(KILL_ON_EMPTY)` returns `false` (bit 0 of the initial value
`0xFFFE` is clear), so by default idle workers wait rather than
self-terminate. -/
theorem fresh_kill_on_empty_false :
    get init_state KILL_ON_EMPTY = false := by
  decide

/-- C10: `get` is conjunctive over mask bits: for every settings state and
all masks `a`, `b`, `get (a ||| b)` returns `true` exactly when `get a` and
`get b` both do. -/
theorem get_mask_conjunctive (s : tm_state) (a b : Nat) :
    get s (a ||| b) = (get s a && get s b) := by
  simp only [get, EVAL]
  rw [Bool.eq_iff_iff]
  simp only [Bool.and_eq_true, beq_iff_eq]
  exact land_lor_eq_iff s.settings_ a b

/-- Modelled from the spec: the body of `task_manager::pool` is not among the
sources (only its declaration); per the spec, `pool(name)` returns a copy of
one pool, or an empty mapping if the name is unknown (not an error). -/
def pool (s : tm_state) (name : String) : List (Nat × String) :=
  (alookup s.pools_ name).getD []

/-- The next available slot id of a pool, read from `pool_ntIDs`; a pool that
was never deposited into has counter `0` (the default-constructed `int` of
`std::unordered_map::operator[]`). -/
def ntID (s : tm_state) (p : String) : Nat :=
  (alookup s.pool_ntIDs p).getD 0

/-- Modelled from the spec: the body of `task_manager::clear_pool` is not
among the sources (only its declaration); per the spec, `clear_pool(name)`
empties one pool's entries, leaves unaffected pools and every slot-id counter
(including the cleared pool's own) untouched, and is a no-op on an unknown
pool name. -/
def clear_pool (s : tm_state) (p : String) : tm_state :=
  { s with pools_ := s.pools_.map (fun e => if e.1 = p then (e.1, []) else e) }

/-- Association-list update-or-insert: update the first entry with the given
key by `f`, or append `(k, f d)` when the key is absent — the embedding of
`std::unordered_map::operator[]` default-inserting `d` and then mutating. -/
def upsert {α : Type} (l : List (String × α)) (k : String) (f : α → α) (d : α) :
    List (String × α) :=
  match l with
  | [] => [(k, f d)]
  | e :: rest => if e.1 = k then (e.1, f e.2) :: rest else e :: upsert rest k f d

/-- Modelled from the spec: the publish step of the worker loop (its body is
not among the sources): allocate the next slot id for the target pool,
store the result string at that slot, and advance that pool's counter. -/
def publish (s : tm_state) (p : String) (res : String) : tm_state :=
  { s with
    pools_ := upsert s.pools_ p (fun m => m ++ [(ntID s p, res)]) []
    pool_ntIDs := upsert s.pool_ntIDs p (fun n => n + 1) 0 }

/-- A sequence of publishes, each given as (target pool, result string),
performed in order. -/
def run_publish (s : tm_state) : List (String × String) → tm_state
  | [] => s
  | o :: rest => run_publish (publish s o.1 o.2) rest

theorem alookup_map_clear_self {p : String} (l : List (String × List (Nat × String))) :
    alookup (l.map (fun e => if e.1 = p then (e.1, ([] : List (Nat × String))) else e)) p
      = (alookup l p).map (fun _ => []) := by
  induction l with
  | nil => rfl
  | cons e rest ih =>
    by_cases h : e.1 = p
    · simp [alookup, h]
    · simp [alookup, h, ih]

theorem alookup_map_clear_other {p q : String} (hq : q ≠ p)
    (l : List (String × List (Nat × String))) :
    alookup (l.map (fun e => if e.1 = p then (e.1, ([] : List (Nat × String))) else e)) q
      = alookup l q := by
  induction l with
  | nil => rfl
  | cons e rest ih =>
    by_cases h : e.1 = p
    · have h2 : ¬ (e.1 = q) := fun hc => hq (hc ▸ h)
      rw [List.map_cons, if_pos h]
      simp [alookup, h2, ih]
    · rw [List.map_cons, if_neg h]
      simp [alookup, ih]

theorem map_clear_of_absent {p : String} (l : List (String × List (Nat × String)))
    (h : alookup l p = none) :
    l.map (fun e => if e.1 = p then (e.1, ([] : List (Nat × String))) else e) = l := by
  induction l with
  | nil => rfl
  | cons e rest ih =>
    by_cases h1 : e.1 = p
    · simp [alookup, h1] at h
    · simp only [alookup, h1, if_neg, ite_eq_right_iff] at h ⊢
      simp [h1, ih h]

/-- C5: `clear_pool p` empties pool `p` to an empty mapping, leaves every
other pool's entries and every slot-id counter (including `p`'s own)
unchanged, and is a no-op when `p` is unknown to the pool store. -/
theorem clear_pool_frame (s : tm_state) (p q : String) (hq : q ≠ p) :
    pool (clear_pool s p) p = [] ∧
    pool (clear_pool s p) q = pool s q ∧
    (clear_pool s p).pool_ntIDs = s.pool_ntIDs ∧
    (alookup s.pools_ p = none → clear_pool s p = s) := by
  refine ⟨?_, ?_, rfl, ?_⟩
  · simp only [pool, clear_pool, alookup_map_clear_self]
    cases alookup s.pools_ p <;> rfl
  · simp only [pool, clear_pool, alookup_map_clear_other hq]
  · intro h
    simp only [clear_pool, map_clear_of_absent s.pools_ h]

/-- A concrete pool store for the witnesses: one pool "a" holding one result
at slot 0, with next counter 1. -/
def state5 : tm_state :=
  { pools_ := [("a", [(0, "x")])], pool_ntIDs := [("a", 1)] }

/-- C5 witness: `clear_pool` on `state5` at pool "a", observed at the other
pool name "b". -/
theorem clear_pool_frame_w :
    pool (clear_pool state5 "a") "a" = [] ∧
    pool (clear_pool state5 "a") "b" = pool state5 "b" ∧
    (clear_pool state5 "a").pool_ntIDs = state5.pool_ntIDs ∧
    (alookup state5.pools_ "a" = none → clear_pool state5 "a" = state5) :=
  clear_pool_frame state5 "a" "b" (by decide)

theorem alookup_upsert_self {α : Type} (l : List (String × α)) (k : String)
    (f : α → α) (d : α) :
    alookup (upsert l k f d) k = some (f ((alookup l k).getD d)) := by
  induction l with
  | nil => simp [upsert, alookup]
  | cons e rest ih =>
    by_cases h : e.1 = k
    · rw [upsert, if_pos h]
      simp [alookup, h]
    · rw [upsert, if_neg h]
      simp [alookup, h, ih]

theorem alookup_upsert_other {α : Type} (l : List (String × α)) (k q : String)
    (hq : q ≠ k) (f : α → α) (d : α) :
    alookup (upsert l k f d) q = alookup l q := by
  induction l with
  | nil => simp [upsert, alookup, Ne.symm hq]
  | cons e rest ih =>
    by_cases h : e.1 = k
    · have h2 : ¬ (e.1 = q) := fun hc => hq (hc ▸ h)
      rw [upsert, if_pos h]
      simp [alookup, h2]
    · rw [upsert, if_neg h]
      simp [alookup, ih]

theorem pool_publish_self (s : tm_state) (p res : String) :
    pool (publish s p res) p = pool s p ++ [(ntID s p, res)] := by
  simp [pool, publish, alookup_upsert_self]

theorem pool_publish_other (s : tm_state) (p q res : String) (hq : q ≠ p) :
    pool (publish s p res) q = pool s q := by
  simp [pool, publish, alookup_upsert_other _ _ _ hq]

theorem ntID_publish_self (s : tm_state) (p res : String) :
    ntID (publish s p res) p = ntID s p + 1 := by
  simp [ntID, publish, alookup_upsert_self]

theorem ntID_publish_other (s : tm_state) (p q res : String) (hq : q ≠ p) :
    ntID (publish s p res) q = ntID s q := by
  simp [ntID, publish, alookup_upsert_other _ _ _ hq]

/-- The pool store invariant: in every pool the slot ids read, in deposit
order, exactly as `0, 1, ..., counter - 1`. -/
def pools_wf (s : tm_state) : Prop :=
  ∀ q, (pool s q).map Prod.fst = List.range (ntID s q)

theorem pools_wf_publish {s : tm_state} (h : pools_wf s) (p res : String) :
    pools_wf (publish s p res) := by
  intro q
  by_cases hq : q = p
  · subst hq
    rw [pool_publish_self, ntID_publish_self, List.map_append, h q, List.range_succ]
    rfl
  · rw [pool_publish_other s p q res hq, ntID_publish_other s p q res hq]
    exact h q

theorem run_publish_keys (ops : List (String × String)) :
    ∀ s : tm_state, pools_wf s →
      ∀ q, (pool (run_publish s ops) q).map Prod.fst
        = List.range (ntID s q + (ops.filter (fun o => o.1 = q)).length) := by
  induction ops with
  | nil =>
    intro s h q
    simpa [run_publish] using h q
  | cons o rest ih =>
    intro s h q
    rw [run_publish]
    have h2 := ih (publish s o.1 o.2) (pools_wf_publish h o.1 o.2) q
    by_cases hq : o.1 = q
    · subst hq
      rw [h2, ntID_publish_self]
      have h3 : (((o :: rest).filter (fun o2 => o2.1 = o.1)).length)
          = ((rest.filter (fun o2 => o2.1 = o.1)).length) + 1 := by
        simp [List.filter_cons]
      rw [h3]
      exact congrArg List.range (by omega)
    · rw [h2, ntID_publish_other s o.1 q o.2 (fun hc => hq hc.symm)]
      have h3 : (((o :: rest).filter (fun o2 => o2.1 = q)).length)
          = ((rest.filter (fun o2 => o2.1 = q)).length) := by
        simp [List.filter_cons, hq]
      rw [h3]

theorem pools_wf_init : pools_wf init_state := by
  intro q
  rfl

/-- C6: starting from a fresh task manager, after any sequence of result
deposits the slot ids of each pool, in deposit order, are exactly
`0, 1, ..., n-1` where `n` counts the deposits into that pool: they start at
0 for a freshly created pool, increment by exactly 1 per deposit into that
pool, are unaffected by deposits into other pools, and no two results in one
pool share a slot id. -/
theorem pool_slot_ids_range (ops : List (String × String)) (p : String) :
    (pool (run_publish init_state ops) p).map Prod.fst
      = List.range ((ops.filter (fun o => o.1 = p)).length) := by
  have h := run_publish_keys ops init_state pools_wf_init p
  rwa [show ntID init_state p = 0 from rfl, Nat.zero_add] at h

/-- The five observability hooks of the task manager, recorded as events:
an invocation of `task_start_callback`, `task_stop_callback`,
`task_fail_callback`, `worker_start_callback` or `worker_stop_callback`
with its arguments. -/
inductive hook_event where
  | task_start (t : task) (wid : Int)
  | task_stop (t : task) (wid : Int)
  | task_fail (t : task) (wid : Int) (err : Int)
  | worker_start (wid : Int)
  | worker_stop (wid : Int)

/-- Modelled from the spec: the completion step of the worker loop (its body,
`_run_worker`, is not among the sources).  On completion of a task whose
function returned `r`: if the error code is non-zero invoke the task-fail
hook with the task, worker id and error code, otherwise the task-stop hook;
in both outcomes append the task's name to the done set and deposit the
result string into the task's target pool at that pool's next slot id. -/
def complete_task (s : tm_state) (t : task) (wid : Int) (r : retype) :
    tm_state × hook_event :=
  (publish { s with done_ := s.done_ ++ [t.name] } (t.get_setting task_settings.POOL) r.ret,
   if r.err ≠ 0 then hook_event.task_fail t wid r.err else hook_event.task_stop t wid)

/-- C4: a task whose function returns a non-zero error code triggers the
task-fail hook with the task, worker id and that error code — never the
task-stop hook — and its name is still appended to the done set, its result
string still stored at the next slot of its target pool, and the resulting
scheduler state is exactly the one a successful task with the same result
string would produce. -/
theorem failed_task_publishes (s : tm_state) (t : task) (wid : Int) (r : retype)
    (h : r.err ≠ 0) :
    (complete_task s t wid r).2 = hook_event.task_fail t wid r.err ∧
    (∀ w2 : Int, (complete_task s t wid r).2 ≠ hook_event.task_stop t w2) ∧
    (complete_task s t wid r).1.done_ = s.done_ ++ [t.name] ∧
    pool (complete_task s t wid r).1 (t.get_setting task_settings.POOL)
      = pool s (t.get_setting task_settings.POOL)
        ++ [(ntID s (t.get_setting task_settings.POOL), r.ret)] ∧
    (complete_task s t wid r).1 = (complete_task s t wid { ret := r.ret, err := 0 }).1 := by
  refine ⟨?_, ?_, ?_, ?_, rfl⟩
  · simp [complete_task, h]
  · intro w2
    simp [complete_task, h]
  · simp [complete_task, publish]
  · have h2 := pool_publish_self { s with done_ := s.done_ ++ [t.name] }
      (t.get_setting task_settings.POOL) r.ret
    simpa [complete_task, pool, ntID] using h2

/-- A concrete failing task for the witness: its function returns error
code 7. -/
def task4 : task := { name := "a", func := fun _ => { ret := "r", err := 7 } }

/-- C4 witness: the failing task `task4` run on worker 0 from a fresh state. -/
theorem failed_task_publishes_w :
    (complete_task init_state task4 0 { ret := "r", err := 7 }).2
      = hook_event.task_fail task4 0 7 ∧
    (∀ w2 : Int, (complete_task init_state task4 0 { ret := "r", err := 7 }).2
      ≠ hook_event.task_stop task4 w2) ∧
    (complete_task init_state task4 0 { ret := "r", err := 7 }).1.done_
      = init_state.done_ ++ [task4.name] ∧
    pool (complete_task init_state task4 0 { ret := "r", err := 7 }).1
        (task4.get_setting task_settings.POOL)
      = pool init_state (task4.get_setting task_settings.POOL)
        ++ [(ntID init_state (task4.get_setting task_settings.POOL), "r")] ∧
    (complete_task init_state task4 0 { ret := "r", err := 7 }).1
      = (complete_task init_state task4 0 { ret := "r", err := 0 }).1 :=
  failed_task_publishes init_state task4 0 { ret := "r", err := 7 } (by decide)

/-- Modelled from the spec: a task is eligible to run when its dependency
name (the `AFTER` setting) is empty, or that name already appears in the
done set. -/
def eligible (done : List String) (t : task) : Bool :=
  t.get_setting task_settings.AFTER = "" ∨
    (t.get_setting task_settings.AFTER) ∈ done

/-- Modelled from the spec: the body of `task_manager::_pop_queue` is not
among the sources (only its declaration).  Per the spec it inspects the
front of the queue; an eligible front task is removed and returned together
with the remaining queue.  An ineligible front blocks the pop when
`IN_ORDER` is set, and otherwise rotates to the back and the new front is
re-inspected; the rotation fuel makes the indefinite-rotation livelock of a
never-satisfied dependency explicit as a `none` result. -/
def _pop_queue (settings : Nat) (done : List String) :
    Nat → List task → Option (task × List task)
  | _, [] => none
  | fuel, t :: rest =>
    if eligible done t then some (t, rest)
    else if EVAL settings IN_ORDER then none
    else
      match fuel with
      | 0 => none
      | f + 1 => _pop_queue settings done f (rest ++ [t])

/-- C7: for every non-empty queue whose front task has an empty dependency
name or one already in the done set, `_pop_queue` removes exactly that front
task and returns it with the rest of the queue unchanged — for every value
of the settings bitset, so an empty-dependency front is eligible regardless
of the `IN_ORDER` and `KILL_ON_EMPTY` policies. -/
theorem pop_queue_front_eligible (settings : Nat) (done : List String)
    (t : task) (rest : List task) (fuel : Nat)
    (h : t.get_setting task_settings.AFTER = "" ∨
      (t.get_setting task_settings.AFTER) ∈ done) :
    _pop_queue settings done fuel (t :: rest) = some (t, rest) := by
  have he : eligible done t = true := by
    simp [eligible, h]
  cases fuel <;> simp [_pop_queue, he]

/-- A concrete task with an empty dependency for the witness. -/
def task7 : task := { name := "b", func := fun _ => { ret := "", err := 0 } }

/-- C7 witness: with both policy bits set (settings = 3) and an empty done
set, the empty-dependency front task `task7` is popped. -/
theorem pop_queue_front_eligible_w :
    _pop_queue 3 [] 0 [task7] = some (task7, []) :=
  pop_queue_front_eligible 3 [] task7 [] 0 (Or.inl (by decide))

/-- C8: a task constructed with a name and no explicitly supplied `POOL`
setting has its own name as its target pool (the default settings map is
`{{AFTER, ""}, {POOL, name}}`). -/
theorem default_target_pool_is_name (n : String) (f : Unit → retype) :
    task.get_setting { name := n, func := f } task_settings.POOL = n := by
  rfl

end unmined
